import Mathlib

/-!
Shallow embedding of the registration-fitness / information-matrix estimator
of the lidar-slam-detection repository
(`hdl_graph_slam::InformationMatrixCalculator`, file
`src/unnamed/part_000`) and of the `Locate::Localization` accessors of
`src/slam/localization/include/localization.h`, together with proofs of the
claims of the spec about them.

Modelling conventions:
* 3D points carry exact rational coordinates (the C++ uses `float`/`double`;
  the algorithmic claims are about the exact computation).
* `pcl::search::KdTree::nearestKSearch(p, 1, idx, dist)` is embedded as exact
  nearest-neighbour search over the input cloud; `nn_dists[0]` is the SQUARED
  Euclidean distance (PCL semantics), and on ties the smallest index wins.
* `std::numeric_limits<double>::max()` is the exact rational value of
  `DBL_MAX`, namely `2^1024 - 2^971`.
* The process-wide `kd_tree_` state set by `rebuild_kd_tree` is passed
  explicitly: `fitness_score` receives the cloud the shared tree was last
  built over as its first argument `kd`.
-/

/-- A 3D point (`pcl::PointXYZI`; the intensity channel plays no role in any
of the functions embedded here). -/
structure Point where
  x : ℚ
  y : ℚ
  z : ℚ
deriving DecidableEq, Repr

/-- A rigid/affine 3D transform (`Eigen::Isometry3d` resp. `Eigen::Affine3f`):
a 3x3 linear part plus a translation.  `transformPoint` applies it exactly. -/
structure Pose where
  r00 : ℚ
  r01 : ℚ
  r02 : ℚ
  r10 : ℚ
  r11 : ℚ
  r12 : ℚ
  r20 : ℚ
  r21 : ℚ
  r22 : ℚ
  tx : ℚ
  ty : ℚ
  tz : ℚ
deriving DecidableEq, Repr

/-- The identity transform (`Eigen::Isometry3d::Identity()`). -/
def idPose : Pose := ⟨1, 0, 0, 0, 1, 0, 0, 0, 1, 0, 0, 0⟩

/-- `pcl::transformPoint` / `pcl::transformPointCloud` on a single point. -/
def transformPoint (T : Pose) (p : Point) : Point :=
  ⟨T.r00 * p.x + T.r01 * p.y + T.r02 * p.z + T.tx,
   T.r10 * p.x + T.r11 * p.y + T.r12 * p.z + T.ty,
   T.r20 * p.x + T.r21 * p.y + T.r22 * p.z + T.tz⟩

/-- Squared Euclidean distance between two points (what the PCL KdTree returns
in `nn_dists`). -/
def sqDist (p q : Point) : ℚ :=
  (p.x - q.x) * (p.x - q.x) + (p.y - q.y) * (p.y - q.y) + (p.z - q.z) * (p.z - q.z)

/-- `tree->nearestKSearch(q, 1, nn_indices, nn_dists)` over the cloud the tree
was built on: index of a nearest neighbour of `q` together with its squared
distance.  On an empty cloud PCL writes nothing, so the value-initialised
`(0, 0.0)` of `std::vector<int> nn_indices(1); std::vector<float> nn_dists(1)`
is returned.  On ties the smallest index is chosen. -/
def nnSearch : List Point → Point → Nat × ℚ
  | [], _ => (0, 0)
  | [p], q => (0, sqDist p q)
  | p :: r :: ps, q =>
    let best := nnSearch (r :: ps) q
    if sqDist p q ≤ best.2 then (0, sqDist p q) else (best.1 + 1, best.2)

/-- The exact rational value of `std::numeric_limits<double>::max()`. -/
def DBL_MAX : ℚ := 2 ^ 1024 - 2 ^ 971

/-- The accumulation loop of `InformationMatrixCalculator::calc_fitness_score`:
for each point of `l` find its nearest neighbour in `kd`; whenever the squared
distance is `<= max_range` add it to the running fitness sum and bump `nr`.
Returns the pair `(fitness_score, nr)`. -/
def scoreLoop (kd : List Point) (max_range : ℚ) : List Point → ℚ × Nat
  | [] => (0, 0)
  | p :: ps =>
    let nd := (nnSearch kd p).2
    let rest := scoreLoop kd max_range ps
    if nd ≤ max_range then (rest.1 + nd, rest.2 + 1) else rest

/-- `InformationMatrixCalculator::calc_fitness_score(cloud1, cloud2, relpose,
max_range)`: build a KD-tree over `cloud1`, transform `cloud2` by `relpose`,
accumulate nearest-neighbour squared distances `<= max_range`, and return
their mean, or `DBL_MAX` when no correspondence was accepted. -/
def calc_fitness_score (cloud1 cloud2 : List Point) (relpose : Pose)
    (max_range : ℚ) : ℚ :=
  let input_transformed := cloud2.map (transformPoint relpose)
  let r := scoreLoop cloud1 max_range input_transformed
  if 0 < r.2 then r.1 / (r.2 : ℚ) else DBL_MAX

/-- Spec-side description of the accepted correspondences of
`calc_fitness_score`: the list of nearest-neighbour squared distances of the
transformed scan points that pass the `<= maxRange` occlusion cutoff. -/
def acceptedDists (cloud1 cloud2 : List Point) (relpose : Pose)
    (max_range : ℚ) : List ℚ :=
  ((cloud2.map (transformPoint relpose)).map
    (fun p => (nnSearch cloud1 p).2)).filter (fun d => d ≤ max_range)

/-- Result of the inlier-producing `InformationMatrixCalculator::fitness_score`
overload: the fitness score, the number `nr` of accepted correspondences and
the anomaly-inlier index list (`pcl::PointIndices`). -/
structure FitnessResult where
  score : ℚ
  nr : Nat
  inliers : List Nat
deriving DecidableEq, Repr

/-- The loop body of the inlier-producing
`InformationMatrixCalculator::fitness_score`: for scan point `i` the nearest
neighbour in the shared KD-tree cloud `kd` is found on the UNTRANSFORMED point;
its squared distance feeds the fitness sum under the `<= max_range` cutoff;
independently, the matched map point `cloud1[nn_index]` and the scan point are
both transformed by `relative` and the index is pushed as an anomaly inlier
when the horizontal squared distance is `<= 10.0`, both heights are below
`floor_height_max` and the vertical separation exceeds `0.25`. -/
def fitnessLoop (kd cloud1 : List Point) (relative : Pose)
    (floor_height_max max_range : ℚ) : List Point → Nat → ℚ × Nat × List Nat
  | [], _ => (0, 0, [])
  | p :: ps, i =>
    let nn := nnSearch kd p
    let rest := fitnessLoop kd cloud1 relative floor_height_max max_range ps (i + 1)
    let fs := if nn.2 ≤ max_range then rest.1 + nn.2 else rest.1
    let nr := if nn.2 ≤ max_range then rest.2.1 + 1 else rest.2.1
    let p1 := transformPoint relative (cloud1.getD nn.1 ⟨0, 0, 0⟩)
    let p2 := transformPoint relative p
    let dx := p1.x - p2.x
    let dy := p1.y - p2.y
    let horizon_dist := dx * dx + dy * dy
    let inl :=
      if horizon_dist ≤ 10 ∧ p1.z < floor_height_max ∧ p2.z < floor_height_max
          ∧ |p1.z - p2.z| > 1 / 4 then
        i :: rest.2.2
      else rest.2.2
    (fs, nr, inl)

/-- `InformationMatrixCalculator::fitness_score(cloud1, cloud2, relpose,
floor_height, nr, inliers, max_range)`.  The process-wide KD-tree state set by
`rebuild_kd_tree` is passed explicitly as `kd` (the cloud the shared tree was
last built over).  Returns the fitness score (mean accepted squared distance,
`DBL_MAX` when none), the out-parameter `nr` and the inlier index list. -/
def fitness_score (kd cloud1 cloud2 : List Point) (relpose : Pose)
    (floor_height max_range : ℚ) : FitnessResult :=
  let r := fitnessLoop kd cloud1 relpose (floor_height + 2) max_range cloud2 0
  ⟨if 0 < r.2.1 then r.1 / (r.2.1 : ℚ) else DBL_MAX, r.2.1, r.2.2⟩

/-- Modelled from the spec: the body of `weight(gain, fitnessThreshold,
minVariance, maxVariance, fitnessScore)` lives in
`hdl_graph_slam/information_matrix_calculator.hpp`, which is not part of the
provided sources; only its call sites are.  The contract given by the spec: "a bounded,
monotonically-increasing-then-saturating mapping from fitness score to
variance, clamped to `[minVariance, maxVariance]`", with
`weight(0) ≈ minVariance`, `weight(score→∞) → maxVariance` and
`weight(fitnessThreshold) ≈ midpoint`, implementable by "any monotonic bounded
curve" with these properties.  The saturating curve
`x ↦ x / (x + fitnessThreshold)` (value `0` at `0`, `1/2` at the threshold,
limit `1`) scaled into the variance range and clamped realises exactly that
contract. -/
def weight (gain fitnessThreshold minVariance maxVariance x : ℚ) : ℚ :=
  let y := x / (x + fitnessThreshold)
  max minVariance (min maxVariance (minVariance + (maxVariance - minVariance) * y))

/-- The configuration fields of `InformationMatrixCalculator`. -/
structure InformationMatrixCalculator where
  use_const_inf_matrix : Bool
  const_stddev_x : ℚ
  const_stddev_q : ℚ
  var_gain_a : ℚ
  min_stddev_x : ℚ
  max_stddev_x : ℚ
  min_stddev_q : ℚ
  max_stddev_q : ℚ
  fitness_score_thresh : ℚ
deriving DecidableEq, Repr

/-- The values set by the `InformationMatrixCalculator` constructor. -/
def defaultCalculator : InformationMatrixCalculator :=
  ⟨false, 1/2, 1/10, 20, 1/10, 5, 1/20, 1/5, 1/2⟩

/-- `Eigen::MatrixXd::Identity(6, 6)`. -/
def eye6 : Fin 6 → Fin 6 → ℚ := fun i j => if i = j then 1 else 0

/-- `inf.topLeftCorner(3, 3).array() /= w`. -/
def divTopLeft (M : Fin 6 → Fin 6 → ℚ) (w : ℚ) : Fin 6 → Fin 6 → ℚ :=
  fun i j => if i.val < 3 ∧ j.val < 3 then M i j / w else M i j

/-- `inf.bottomRightCorner(3, 3).array() /= w`. -/
def divBottomRight (M : Fin 6 → Fin 6 → ℚ) (w : ℚ) : Fin 6 → Fin 6 → ℚ :=
  fun i j => if 3 ≤ i.val ∧ 3 ≤ j.val then M i j / w else M i j

/-- `InformationMatrixCalculator::calc_information_matrix(cloud1, cloud2,
relpose)`.  In constant mode the identity has its translation block divided by
`const_stddev_x` and its rotation block by `const_stddev_q`; otherwise the
fitness score is computed (the `max_range` default argument, declared in the
missing header, is modelled from the maximum-value sentinel of the spec as
`DBL_MAX`, i.e. the occlusion cutoff accepts everything) and the blocks are
divided by the `weight`-derived variances. -/
def calc_information_matrix (c : InformationMatrixCalculator)
    (cloud1 cloud2 : List Point) (relpose : Pose) : Fin 6 → Fin 6 → ℚ :=
  if c.use_const_inf_matrix then
    divBottomRight (divTopLeft eye6 c.const_stddev_x) c.const_stddev_q
  else
    let fitness := calc_fitness_score cloud1 cloud2 relpose DBL_MAX
    let min_var_x := c.min_stddev_x ^ 2
    let max_var_x := c.max_stddev_x ^ 2
    let min_var_q := c.min_stddev_q ^ 2
    let max_var_q := c.max_stddev_q ^ 2
    let w_x := weight c.var_gain_a c.fitness_score_thresh min_var_x max_var_x fitness
    let w_q := weight c.var_gain_a c.fitness_score_thresh min_var_q max_var_q fitness
    divBottomRight (divTopLeft eye6 w_x) w_q

/-- Modelled from the spec: the payload of an RTK/INS fix (`RTKType`, declared
in `mapping_types.h`, which is not part of the provided sources) — "timestamped
INS/RTK fixes".  Its precise field list is irrelevant to the claims about it. -/
structure RTKType where
  timestamp : Nat
  latitude : ℚ
  longitude : ℚ
  altitude : ℚ
  heading : ℚ
deriving DecidableEq, Repr

/-- The members of `Locate::Localization` that its origin accessors touch
(`mOrigin`, `mOriginIsSet`), together with representative further state so
that "the entire object state" is more than the two observed fields. -/
structure LocalizationState where
  mOrigin : RTKType
  mOriginIsSet : Bool
  mInitialized : Bool
  mFailureLocalizeCount : Int
  mLidarName : String
  mImageName : String
deriving DecidableEq, Repr

/-- `Localization::setOrigin(RTKType rtk)`: the body of the override in
`localization.h` is empty, so the state is returned unchanged. -/
def setOrigin (s : LocalizationState) (_rtk : RTKType) : LocalizationState := s

/-- `Localization::originIsSet()`. -/
def originIsSet (s : LocalizationState) : Bool := s.mOriginIsSet

/-- `Localization::getOrigin()`. -/
def getOrigin (s : LocalizationState) : RTKType := s.mOrigin

theorem sqDist_nonneg (p q : Point) : 0 ≤ sqDist p q := by
  unfold sqDist
  nlinarith [mul_self_nonneg (p.x - q.x), mul_self_nonneg (p.y - q.y),
    mul_self_nonneg (p.z - q.z)]

theorem sqDist_self (q : Point) : sqDist q q = 0 := by
  unfold sqDist; ring

theorem nnSearch_snd_nonneg : ∀ (c : List Point) (q : Point), 0 ≤ (nnSearch c q).2
  | [], _ => le_refl 0
  | [p], q => sqDist_nonneg p q
  | p :: r :: ps, q => by
    have ih := nnSearch_snd_nonneg (r :: ps) q
    by_cases h : sqDist p q ≤ (nnSearch (r :: ps) q).2
    · simpa [nnSearch, h] using sqDist_nonneg p q
    · simpa [nnSearch, h] using ih

theorem nnSearch_dist_le :
    ∀ (c : List Point) (q r : Point), r ∈ c → (nnSearch c q).2 ≤ sqDist r q
  | [], _, _, h => absurd h (List.not_mem_nil _)
  | [p], q, r, h => by
    rcases List.mem_singleton.1 h with rfl
    simp [nnSearch]
  | p :: s :: ps, q, r, h => by
    by_cases hc : sqDist p q ≤ (nnSearch (s :: ps) q).2
    · rcases List.mem_cons.1 h with rfl | hr
      · simp [nnSearch, hc]
      · exact le_trans (by simp [nnSearch, hc]) (le_trans hc (nnSearch_dist_le (s :: ps) q r hr))
    · rcases List.mem_cons.1 h with rfl | hr
      · simpa [nnSearch, hc] using le_of_not_le hc
      · simpa [nnSearch, hc] using nnSearch_dist_le (s :: ps) q r hr

theorem nnSearch_mem_zero (c : List Point) (q : Point) (h : q ∈ c) :
    (nnSearch c q).2 = 0 :=
  le_antisymm (by simpa [sqDist_self] using nnSearch_dist_le c q q h)
    (nnSearch_snd_nonneg c q)

theorem transformPoint_id (p : Point) : transformPoint idPose p = p := by
  cases p
  simp [transformPoint, idPose]

theorem map_transformPoint_id (l : List Point) : l.map (transformPoint idPose) = l := by
  induction l with
  | nil => rfl
  | cons p ps ih => simp [transformPoint_id, ih]

theorem scoreLoop_eq (kd : List Point) (mr : ℚ) : ∀ l : List Point,
    scoreLoop kd mr l =
      (((l.map fun p => (nnSearch kd p).2).filter fun d => d ≤ mr).sum,
       ((l.map fun p => (nnSearch kd p).2).filter fun d => d ≤ mr).length)
  | [] => rfl
  | p :: ps => by
    have ih := scoreLoop_eq kd mr ps
    by_cases h : (nnSearch kd p).2 ≤ mr
    · simp [scoreLoop, ih, List.filter_cons, h, Prod.ext_iff]
      ring
    · simp [scoreLoop, ih, List.filter_cons, h]

theorem sum_le_length_mul : ∀ (l : List ℚ) (m : ℚ),
    (∀ x ∈ l, x ≤ m) → l.sum ≤ (l.length : ℚ) * m
  | [], _, _ => by simp
  | x :: xs, m, h => by
    have ih := sum_le_length_mul xs m (fun y hy => h y (List.mem_cons_of_mem x hy))
    have hx := h x (List.mem_cons_self x xs)
    simp only [List.sum_cons, List.length_cons]
    push_cast
    nlinarith

theorem scoreLoop_all_zero (kd : List Point) (mr : ℚ) (hmr : 0 ≤ mr) :
    ∀ l : List Point, (∀ p ∈ l, (nnSearch kd p).2 = 0) →
      scoreLoop kd mr l = (0, l.length)
  | [], _ => rfl
  | p :: ps, h => by
    have hp := h p (List.mem_cons_self p ps)
    have ih := scoreLoop_all_zero kd mr hmr ps (fun q hq => h q (List.mem_cons_of_mem p hq))
    simp [scoreLoop, hp, hmr, ih]

theorem fitnessLoop_score_nr (kd cloud1 : List Point) (rel : Pose) (fhm mr : ℚ) :
    ∀ (l : List Point) (i : Nat),
      ((fitnessLoop kd cloud1 rel fhm mr l i).1, (fitnessLoop kd cloud1 rel fhm mr l i).2.1)
        = scoreLoop kd mr l
  | [], _ => rfl
  | p :: ps, i => by
    have ih := fitnessLoop_score_nr kd cloud1 rel fhm mr ps (i + 1)
    have h1 : (fitnessLoop kd cloud1 rel fhm mr ps (i + 1)).1 = (scoreLoop kd mr ps).1 :=
      congrArg Prod.fst ih
    have h2 : (fitnessLoop kd cloud1 rel fhm mr ps (i + 1)).2.1 = (scoreLoop kd mr ps).2 :=
      congrArg Prod.snd ih
    by_cases h : (nnSearch kd p).2 ≤ mr
    · simp [fitnessLoop, scoreLoop, h, h1, h2]
    · simp [fitnessLoop, scoreLoop, h, h1, h2]

theorem fitnessLoop_inliers_eq (kd cloud1 : List Point) (rel : Pose) (fhm mr mr2 : ℚ) :
    ∀ (l : List Point) (i : Nat),
      (fitnessLoop kd cloud1 rel fhm mr l i).2.2
        = (fitnessLoop kd cloud1 rel fhm mr2 l i).2.2
  | [], _ => rfl
  | p :: ps, i => by
    have ih := fitnessLoop_inliers_eq kd cloud1 rel fhm mr mr2 ps (i + 1)
    simp only [fitnessLoop]
    split
    · simp [ih]
    · simp [ih]

theorem calc_fitness_score_def (cloud1 cloud2 : List Point) (relpose : Pose) (mr : ℚ) :
    calc_fitness_score cloud1 cloud2 relpose mr =
      if 0 < (scoreLoop cloud1 mr (cloud2.map (transformPoint relpose))).2 then
        (scoreLoop cloud1 mr (cloud2.map (transformPoint relpose))).1
          / ((scoreLoop cloud1 mr (cloud2.map (transformPoint relpose))).2 : ℚ)
      else DBL_MAX := rfl

theorem fitness_score_def (kd cloud1 cloud2 : List Point) (relpose : Pose)
    (floor_height mr : ℚ) :
    fitness_score kd cloud1 cloud2 relpose floor_height mr =
      ⟨if 0 < (fitnessLoop kd cloud1 relpose (floor_height + 2) mr cloud2 0).2.1 then
          (fitnessLoop kd cloud1 relpose (floor_height + 2) mr cloud2 0).1
            / ((fitnessLoop kd cloud1 relpose (floor_height + 2) mr cloud2 0).2.1 : ℚ)
        else DBL_MAX,
       (fitnessLoop kd cloud1 relpose (floor_height + 2) mr cloud2 0).2.1,
       (fitnessLoop kd cloud1 relpose (floor_height + 2) mr cloud2 0).2.2⟩ := rfl

theorem mean_sentinel_iff (kd : List Point) (mr : ℚ) (l : List Point)
    (hmr : mr < DBL_MAX) :
    (if 0 < (scoreLoop kd mr l).2 then
        (scoreLoop kd mr l).1 / ((scoreLoop kd mr l).2 : ℚ)
      else DBL_MAX) = DBL_MAX
      ↔ ∀ p ∈ l, mr < (nnSearch kd p).2 := by
  rw [scoreLoop_eq]
  set acc := (l.map fun p => (nnSearch kd p).2).filter (fun d => d ≤ mr) with hacc
  have hmem : (∀ p ∈ l, mr < (nnSearch kd p).2) ↔ acc = [] := by
    rw [hacc, List.filter_eq_nil_iff]
    constructor
    · intro hall d hd
      rcases List.mem_map.1 hd with ⟨q, hq, rfl⟩
      simpa using not_le.2 (hall q hq)
    · intro hall p hp
      have := hall _ (List.mem_map_of_mem _ hp)
      simpa [not_le] using this
  by_cases hlen : 0 < acc.length
  · have hne : acc ≠ [] := by
      intro h0
      rw [h0] at hlen
      simp at hlen
    simp only [hlen, if_true]
    constructor
    · intro heq
      exfalso
      have hall : ∀ d ∈ acc, d ≤ mr := by
        intro d hd
        have := List.of_mem_filter hd
        simpa using this
      have hsum : acc.sum ≤ (acc.length : ℚ) * mr := sum_le_length_mul acc mr hall
      have hdiv : acc.sum / (acc.length : ℚ) ≤ mr := by
        rw [div_le_iff₀ (by exact_mod_cast hlen)]
        linarith [hsum]
      rw [heq] at hdiv
      linarith
    · intro hall
      exact absurd (hmem.1 hall) hne
  · have h0 : acc = [] := List.length_eq_zero.1 (Nat.eq_zero_of_not_pos hlen)
    simp only [hlen, if_false]
    simp [hmem, h0]

theorem calc_sentinel_iff_aux (cloud1 cloud2 : List Point) (relpose : Pose)
    (mr : ℚ) (hmr : mr < DBL_MAX) :
    calc_fitness_score cloud1 cloud2 relpose mr = DBL_MAX
      ↔ ∀ p ∈ cloud2, mr < (nnSearch cloud1 (transformPoint relpose p)).2 := by
  rw [calc_fitness_score_def, mean_sentinel_iff cloud1 mr _ hmr]
  constructor
  · intro hall p hp
    exact hall _ (List.mem_map_of_mem _ hp)
  · intro hall q hq
    rcases List.mem_map.1 hq with ⟨p, hp, rfl⟩
    exact hall p hp

theorem fitness_sentinel_iff_aux (kd cloud1 cloud2 : List Point) (relpose : Pose)
    (floor_height mr : ℚ) (hmr : mr < DBL_MAX) :
    (fitness_score kd cloud1 cloud2 relpose floor_height mr).score = DBL_MAX
      ↔ ∀ p ∈ cloud2, mr < (nnSearch kd p).2 := by
  have h := fitnessLoop_score_nr kd cloud1 relpose (floor_height + 2) mr cloud2 0
  have h1 : (fitnessLoop kd cloud1 relpose (floor_height + 2) mr cloud2 0).1
      = (scoreLoop kd mr cloud2).1 := congrArg Prod.fst h
  have h2 : (fitnessLoop kd cloud1 relpose (floor_height + 2) mr cloud2 0).2.1
      = (scoreLoop kd mr cloud2).2 := congrArg Prod.snd h
  have hs : (fitness_score kd cloud1 cloud2 relpose floor_height mr).score
      = (if 0 < (fitnessLoop kd cloud1 relpose (floor_height + 2) mr cloud2 0).2.1 then
          (fitnessLoop kd cloud1 relpose (floor_height + 2) mr cloud2 0).1
            / ((fitnessLoop kd cloud1 relpose (floor_height + 2) mr cloud2 0).2.1 : ℚ)
        else DBL_MAX) := rfl
  rw [hs, h1, h2]
  exact mean_sentinel_iff kd mr cloud2 hmr

/-- C1: for every non-empty `mapCloud` (`cloud1`), every `scanCloud`
(`cloud2`), every `relativePose` and every `maxRange`, as soon as at least one
correspondence is accepted, `calc_fitness_score` transforms the scan by the
relative pose, takes for each transformed point the nearest-neighbour
(squared) distance in the map cloud, keeps exactly those distances that are
`<= maxRange`, and returns their arithmetic mean; moreover the loop counter
`nr` is the number of accepted correspondences. -/
theorem calc_fitness_score_is_mean (cloud1 cloud2 : List Point) (relpose : Pose)
    (max_range : ℚ) (h1 : cloud1 ≠ [])
    (h2 : acceptedDists cloud1 cloud2 relpose max_range ≠ []) :
    calc_fitness_score cloud1 cloud2 relpose max_range
        = (acceptedDists cloud1 cloud2 relpose max_range).sum
          / ((acceptedDists cloud1 cloud2 relpose max_range).length : ℚ)
      ∧ (scoreLoop cloud1 max_range (cloud2.map (transformPoint relpose))).2
        = (acceptedDists cloud1 cloud2 relpose max_range).length := by
  have he := scoreLoop_eq cloud1 max_range (cloud2.map (transformPoint relpose))
  have hacc : acceptedDists cloud1 cloud2 relpose max_range
      = ((cloud2.map (transformPoint relpose)).map
          fun p => (nnSearch cloud1 p).2).filter (fun d => d ≤ max_range) := rfl
  have hlen : 0 < (acceptedDists cloud1 cloud2 relpose max_range).length :=
    List.length_pos.2 h2
  constructor
  · rw [calc_fitness_score_def, he, ← hacc]
    simp [hlen]
  · rw [he, ← hacc]

theorem calc_fitness_score_is_mean_witness :
    (([⟨0, 0, 0⟩] : List Point) ≠ []
      ∧ acceptedDists [⟨0, 0, 0⟩] [⟨0, 0, 0⟩] idPose 1 ≠ [])
    ∧ (calc_fitness_score [⟨0, 0, 0⟩] [⟨0, 0, 0⟩] idPose 1
          = (acceptedDists [⟨0, 0, 0⟩] [⟨0, 0, 0⟩] idPose 1).sum
            / ((acceptedDists [⟨0, 0, 0⟩] [⟨0, 0, 0⟩] idPose 1).length : ℚ)
        ∧ (scoreLoop [⟨0, 0, 0⟩] 1 (([⟨0, 0, 0⟩] : List Point).map (transformPoint idPose))).2
          = (acceptedDists [⟨0, 0, 0⟩] [⟨0, 0, 0⟩] idPose 1).length) :=
  ⟨⟨by simp, by norm_num [acceptedDists, nnSearch, sqDist, transformPoint, idPose]⟩,
   calc_fitness_score_is_mean [⟨0, 0, 0⟩] [⟨0, 0, 0⟩] idPose 1 (by simp)
     (by norm_num [acceptedDists, nnSearch, sqDist, transformPoint, idPose])⟩

/-- C2: both `calc_fitness_score` and the inlier-producing `fitness_score`
overload (with the shared KD-tree rebuilt over the map cloud) return
`DBL_MAX` if and only if zero correspondences are accepted, i.e. every scan
point has nearest-neighbour (squared) distance exceeding `maxRange`; both
functions are total, so no exception is raised in that case.  The hypothesis
`max_range < DBL_MAX` reflects that `nn_dists` holds single-precision floats,
whose values are always below `DBL_MAX` in the C++ program. -/
theorem fitness_sentinel_iff (cloud1 cloud2 : List Point) (relpose : Pose)
    (floor_height max_range : ℚ) (hmr : max_range < DBL_MAX) :
    (calc_fitness_score cloud1 cloud2 relpose max_range = DBL_MAX
      ↔ ∀ p ∈ cloud2, max_range < (nnSearch cloud1 (transformPoint relpose p)).2)
    ∧ ((fitness_score cloud1 cloud1 cloud2 relpose floor_height max_range).score = DBL_MAX
      ↔ ∀ p ∈ cloud2, max_range < (nnSearch cloud1 p).2) :=
  ⟨calc_sentinel_iff_aux cloud1 cloud2 relpose max_range hmr,
   fitness_sentinel_iff_aux cloud1 cloud1 cloud2 relpose floor_height max_range hmr⟩

theorem fitness_sentinel_iff_witness :
    (1 : ℚ) < DBL_MAX
    ∧ ((calc_fitness_score [⟨0, 0, 0⟩] [⟨9, 0, 0⟩] idPose 1 = DBL_MAX
        ↔ ∀ p ∈ ([⟨9, 0, 0⟩] : List Point),
            1 < (nnSearch [⟨0, 0, 0⟩] (transformPoint idPose p)).2)
      ∧ ((fitness_score [⟨0, 0, 0⟩] [⟨0, 0, 0⟩] [⟨9, 0, 0⟩] idPose 0 1).score = DBL_MAX
        ↔ ∀ p ∈ ([⟨9, 0, 0⟩] : List Point), 1 < (nnSearch [⟨0, 0, 0⟩] p).2)) :=
  ⟨by norm_num [DBL_MAX],
   fitness_sentinel_iff [⟨0, 0, 0⟩] [⟨9, 0, 0⟩] idPose 0 1 (by norm_num [DBL_MAX])⟩

/-- C7: with `maxRange = 0`, on clouds that are non-coincident — no
transformed scan point sits exactly on a map point, so every
nearest-neighbour squared distance is strictly positive — no correspondence
passes the `<= 0` cutoff and `calc_fitness_score` returns the `DBL_MAX`
sentinel. -/
theorem calc_fitness_score_zero_range (cloud1 cloud2 : List Point)
    (relpose : Pose)
    (h : ∀ p ∈ cloud2, 0 < (nnSearch cloud1 (transformPoint relpose p)).2) :
    calc_fitness_score cloud1 cloud2 relpose 0 = DBL_MAX :=
  (calc_sentinel_iff_aux cloud1 cloud2 relpose 0 (by norm_num [DBL_MAX])).2 h

theorem calc_fitness_score_zero_range_witness :
    (∀ p ∈ ([⟨1, 0, 0⟩] : List Point),
        0 < (nnSearch [⟨0, 0, 0⟩] (transformPoint idPose p)).2)
    ∧ calc_fitness_score [⟨0, 0, 0⟩] [⟨1, 0, 0⟩] idPose 0 = DBL_MAX :=
  ⟨by norm_num [nnSearch, sqDist, transformPoint, idPose],
   calc_fitness_score_zero_range [⟨0, 0, 0⟩] [⟨1, 0, 0⟩] idPose
     (by norm_num [nnSearch, sqDist, transformPoint, idPose])⟩

/-- C8: on identical non-empty clouds with the identity relative pose and any
non-negative `maxRange`, every transformed scan point coincides with a map
point, so every nearest-neighbour distance is `0`, every correspondence is
accepted, and `calc_fitness_score` returns exactly `0`. -/
theorem calc_fitness_score_self_zero (cloud : List Point) (max_range : ℚ)
    (hne : cloud ≠ []) (hmr : 0 ≤ max_range) :
    calc_fitness_score cloud cloud idPose max_range = 0 := by
  have hz : ∀ p ∈ cloud, (nnSearch cloud p).2 = 0 :=
    fun p hp => nnSearch_mem_zero cloud p hp
  have hloop := scoreLoop_all_zero cloud max_range hmr cloud hz
  rw [calc_fitness_score_def, map_transformPoint_id, hloop]
  have hpos : 0 < cloud.length := List.length_pos.2 hne
  simp [hpos]

theorem calc_fitness_score_self_zero_witness :
    (([⟨1, 2, 3⟩] : List Point) ≠ [] ∧ (0 : ℚ) ≤ 1)
    ∧ calc_fitness_score [⟨1, 2, 3⟩] [⟨1, 2, 3⟩] idPose 1 = 0 :=
  ⟨⟨by simp, by norm_num⟩,
   calc_fitness_score_self_zero [⟨1, 2, 3⟩] 1 (by simp) (by norm_num)⟩

/-- C5: in the inlier-producing `fitness_score`, a pair of corresponding
points separated by `0.5` m vertically and `0` m horizontally, both below the
floor-height ceiling (`floor_height + 2`), is pushed into the anomaly inlier
set, while a pair separated by only `0.1` m vertically under otherwise
identical conditions is not (`0.5 > 0.25` but `0.1 ≤ 0.25`). -/
theorem fitness_score_inlier_flagging :
    (fitness_score [⟨0, 0, 0⟩] [⟨0, 0, 0⟩] [⟨0, 0, 1/2⟩] idPose 0 1).inliers = [0]
    ∧ (fitness_score [⟨0, 0, 0⟩] [⟨0, 0, 0⟩] [⟨0, 0, 1/10⟩] idPose 0 1).inliers = [] := by
  constructor
  · norm_num [fitness_score, fitnessLoop, nnSearch, sqDist, transformPoint, idPose,
      List.getD, abs_of_nonneg]
  · norm_num [fitness_score, fitnessLoop, nnSearch, sqDist, transformPoint, idPose,
      List.getD, abs_of_nonneg]

/-- C6 counterexample: the fitness component of the inlier-producing
`fitness_score` overload does NOT always equal `calc_fitness_score` on the
same map cloud, scan cloud, relative pose and max range (shared KD-tree
rebuilt over the map cloud): with a single coincident point pair and a pure
`+10` x-translation as the relative pose, the overload queries the
untransformed scan point (distance `0`, score `0`) while `calc_fitness_score`
transforms it first (squared distance `100 > 1`, zero accepted
correspondences, `DBL_MAX`). -/
theorem fitness_score_vs_calc_counterexample :
    (fitness_score [⟨0, 0, 0⟩] [⟨0, 0, 0⟩] [⟨0, 0, 0⟩]
        ⟨1, 0, 0, 0, 1, 0, 0, 0, 1, 10, 0, 0⟩ 0 1).score
      ≠ calc_fitness_score [⟨0, 0, 0⟩] [⟨0, 0, 0⟩]
          ⟨1, 0, 0, 0, 1, 0, 0, 0, 1, 10, 0, 0⟩ 1 := by
  norm_num [fitness_score, fitnessLoop, calc_fitness_score, scoreLoop, nnSearch, sqDist,
    transformPoint, idPose, List.getD, DBL_MAX, abs_of_nonneg]

/-- C6 (amended): for every map cloud (shared KD-tree rebuilt over it), scan
cloud, relative pose, floor height and max range, the fitness component of the
inlier-producing `fitness_score` overload equals `calc_fitness_score` on the
same map cloud and scan cloud with the IDENTITY relative pose: the overload
never transforms the scan before the nearest-neighbour search, so equality
with the same `relativePose` holds exactly when that pose acts as the
identity on the scan. -/
theorem fitness_score_eq_calc_identity (cloud1 cloud2 : List Point)
    (relpose : Pose) (floor_height max_range : ℚ) :
    (fitness_score cloud1 cloud1 cloud2 relpose floor_height max_range).score
      = calc_fitness_score cloud1 cloud2 idPose max_range := by
  have h := fitnessLoop_score_nr cloud1 cloud1 relpose (floor_height + 2) max_range cloud2 0
  have h1 : (fitnessLoop cloud1 cloud1 relpose (floor_height + 2) max_range cloud2 0).1
      = (scoreLoop cloud1 max_range cloud2).1 := congrArg Prod.fst h
  have h2 : (fitnessLoop cloud1 cloud1 relpose (floor_height + 2) max_range cloud2 0).2.1
      = (scoreLoop cloud1 max_range cloud2).2 := congrArg Prod.snd h
  have hs : (fitness_score cloud1 cloud1 cloud2 relpose floor_height max_range).score
      = (if 0 < (fitnessLoop cloud1 cloud1 relpose (floor_height + 2) max_range cloud2 0).2.1 then
          (fitnessLoop cloud1 cloud1 relpose (floor_height + 2) max_range cloud2 0).1
            / ((fitnessLoop cloud1 cloud1 relpose (floor_height + 2) max_range cloud2 0).2.1 : ℚ)
        else DBL_MAX) := rfl
  rw [hs, h1, h2, calc_fitness_score_def, map_transformPoint_id]

/-- C9: the anomaly inlier set computed by the inlier-producing
`fitness_score` is independent of `maxRange` — the vertical-discontinuity
check runs for every scan point, whether or not its nearest-neighbour
distance passed the `<= maxRange` occlusion test — so two runs differing only
in `maxRange` produce identical inlier index lists. -/
theorem fitness_score_inliers_independent_of_max_range
    (kd cloud1 cloud2 : List Point) (relpose : Pose)
    (floor_height max_range max_range2 : ℚ) :
    (fitness_score kd cloud1 cloud2 relpose floor_height max_range).inliers
      = (fitness_score kd cloud1 cloud2 relpose floor_height max_range2).inliers :=
  fitnessLoop_inliers_eq kd cloud1 relpose (floor_height + 2) max_range max_range2 cloud2 0

/-- C10: `Localization::setOrigin` has an empty body, hence is a no-op: for
every localization state and every RTK value the state is unchanged, and in
particular `originIsSet` and `getOrigin` return the same results after the
call as before it. -/
theorem setOrigin_noop (s : LocalizationState) (rtk : RTKType) :
    setOrigin s rtk = s
    ∧ originIsSet (setOrigin s rtk) = originIsSet s
    ∧ getOrigin (setOrigin s rtk) = getOrigin s :=
  ⟨rfl, rfl, rfl⟩

/-- C3: for every non-negative fitness-score input, `weight` stays within
`[minVariance, maxVariance]`, and `weight` is monotonically non-decreasing in
the fitness-score argument (hypotheses: positive threshold and a non-empty
variance interval). -/
theorem weight_bounded_and_monotone (gain thr minv maxv s t : ℚ)
    (hthr : 0 < thr) (hmm : minv ≤ maxv) (hs : 0 ≤ s) (hst : s ≤ t) :
    (minv ≤ weight gain thr minv maxv s ∧ weight gain thr minv maxv s ≤ maxv)
    ∧ weight gain thr minv maxv s ≤ weight gain thr minv maxv t := by
  unfold weight
  refine ⟨⟨le_max_left _ _, max_le hmm (min_le_left _ _)⟩, ?_⟩
  have hF : s / (s + thr) ≤ t / (t + thr) := by
    have hs2 : 0 < s + thr := by linarith
    have ht2 : 0 < t + thr := by linarith
    rw [div_le_div_iff₀ hs2 ht2]
    nlinarith
  have hlin : minv + (maxv - minv) * (s / (s + thr))
      ≤ minv + (maxv - minv) * (t / (t + thr)) := by
    have := mul_le_mul_of_nonneg_left hF (by linarith : (0:ℚ) ≤ maxv - minv)
    linarith
  exact max_le_max (le_refl minv) (min_le_min (le_refl maxv) hlin)

theorem weight_bounded_and_monotone_witness :
    ((0:ℚ) < 1/2 ∧ (1:ℚ)/100 ≤ 25 ∧ (0:ℚ) ≤ 0 ∧ (0:ℚ) ≤ 1)
    ∧ (((1:ℚ)/100 ≤ weight 20 (1/2) (1/100) 25 0
          ∧ weight 20 (1/2) (1/100) 25 0 ≤ 25)
        ∧ weight 20 (1/2) (1/100) 25 0 ≤ weight 20 (1/2) (1/100) 25 1) :=
  ⟨⟨by norm_num, by norm_num, le_refl 0, by norm_num⟩,
   weight_bounded_and_monotone 20 (1/2) (1/100) 25 0 1
     (by norm_num) (by norm_num) (le_refl 0) (by norm_num)⟩

theorem weight_ge_min (gain thr minv maxv x : ℚ) : minv ≤ weight gain thr minv maxv x := by
  unfold weight
  exact le_max_left _ _

theorem blockdiag_entry (w1 w2 : ℚ) (i j : Fin 6) :
    divBottomRight (divTopLeft eye6 w1) w2 i j
      = if i = j then (if i.val < 3 then 1 / w1 else 1 / w2) else 0 := by
  fin_cases i <;> fin_cases j <;>
    simp +decide [divBottomRight, divTopLeft, eye6]

theorem blockdiag_spd (w1 w2 : ℚ) (h1 : 0 < w1) (h2 : 0 < w2) :
    (∀ i j : Fin 6, i ≠ j → divBottomRight (divTopLeft eye6 w1) w2 i j = 0)
    ∧ (∀ i : Fin 6, 0 < divBottomRight (divTopLeft eye6 w1) w2 i i)
    ∧ (∀ i j : Fin 6, divBottomRight (divTopLeft eye6 w1) w2 i j
        = divBottomRight (divTopLeft eye6 w1) w2 j i)
    ∧ ∀ x : Fin 6 → ℚ, x ≠ 0 →
        0 < ∑ i, ∑ j, x i * divBottomRight (divTopLeft eye6 w1) w2 i j * x j := by
  refine ⟨?_, ?_, ?_, ?_⟩
  · intro i j hij
    rw [blockdiag_entry]
    simp [hij]
  · intro i
    rw [blockdiag_entry]
    by_cases h : i.val < 3
    · simpa [h] using by positivity
    · simpa [h] using by positivity
  · intro i j
    rw [blockdiag_entry, blockdiag_entry]
    by_cases h : i = j
    · subst h; rfl
    · simp [h, Ne.symm h]
  · intro x hx
    have hQ : (∑ i, ∑ j, x i * divBottomRight (divTopLeft eye6 w1) w2 i j * x j)
        = (1 / w1) * (x 0 * x 0 + x 1 * x 1 + x 2 * x 2)
          + (1 / w2) * (x 3 * x 3 + x 4 * x 4 + x 5 * x 5) := by
      simp +decide only [blockdiag_entry, mul_ite, ite_mul, mul_zero, zero_mul,
        Finset.sum_ite_eq, Finset.mem_univ, if_true, Fin.sum_univ_six]
      norm_num
      ring
    rw [hQ]
    have hex : ∃ i, x i ≠ 0 := by
      by_contra hno
      push_neg at hno
      exact hx (funext hno)
    obtain ⟨i, hi⟩ := hex
    have hw1 : 0 < 1 / w1 := by positivity
    have hw2 : 0 < 1 / w2 := by positivity
    have hS : 0 < ∑ k : Fin 6, x k * x k :=
      Finset.sum_pos' (fun k _ => mul_self_nonneg (x k))
        ⟨i, Finset.mem_univ i, mul_self_pos.2 hi⟩
    have hsplit : (∑ k : Fin 6, x k * x k)
        = (x 0 * x 0 + x 1 * x 1 + x 2 * x 2) + (x 3 * x 3 + x 4 * x 4 + x 5 * x 5) := by
      rw [Fin.sum_univ_six]
      ring
    rw [hsplit] at hS
    have hs1n : 0 ≤ x 0 * x 0 + x 1 * x 1 + x 2 * x 2 := by
      nlinarith [mul_self_nonneg (x 0), mul_self_nonneg (x 1), mul_self_nonneg (x 2)]
    have hs2n : 0 ≤ x 3 * x 3 + x 4 * x 4 + x 5 * x 5 := by
      nlinarith [mul_self_nonneg (x 3), mul_self_nonneg (x 4), mul_self_nonneg (x 5)]
    rcases lt_or_le 0 (x 0 * x 0 + x 1 * x 1 + x 2 * x 2) with hpos | hz
    · nlinarith [mul_pos hw1 hpos, mul_nonneg hw2.le hs2n]
    · have hp2 : 0 < x 3 * x 3 + x 4 * x 4 + x 5 * x 5 := by linarith
      nlinarith [mul_pos hw2 hp2, mul_nonneg hw1.le hs1n]

/-- C4: for every pair of input clouds and every relative pose, in either
mode (constant or fitness-derived), the 6x6 matrix returned by
`calc_information_matrix` is diagonal with strictly positive diagonal
entries, hence symmetric and positive-definite (stated via its quadratic
form).  The hypotheses are positivity of the configured standard deviations,
as set by the constructor defaults. -/
theorem calc_information_matrix_spd (c : InformationMatrixCalculator)
    (hcx : 0 < c.const_stddev_x) (hcq : 0 < c.const_stddev_q)
    (hmx : 0 < c.min_stddev_x) (hmq : 0 < c.min_stddev_q)
    (cloud1 cloud2 : List Point) (relpose : Pose) :
    (∀ i j : Fin 6, i ≠ j → calc_information_matrix c cloud1 cloud2 relpose i j = 0)
    ∧ (∀ i : Fin 6, 0 < calc_information_matrix c cloud1 cloud2 relpose i i)
    ∧ (∀ i j : Fin 6, calc_information_matrix c cloud1 cloud2 relpose i j
        = calc_information_matrix c cloud1 cloud2 relpose j i)
    ∧ ∀ x : Fin 6 → ℚ, x ≠ 0 →
        0 < ∑ i, ∑ j, x i * calc_information_matrix c cloud1 cloud2 relpose i j * x j := by
  unfold calc_information_matrix
  by_cases hmode : c.use_const_inf_matrix
  · simp only [hmode, if_true]
    exact blockdiag_spd c.const_stddev_x c.const_stddev_q hcx hcq
  · simp only [hmode, if_false]
    exact blockdiag_spd _ _
      (lt_of_lt_of_le (by positivity) (weight_ge_min c.var_gain_a c.fitness_score_thresh
        (c.min_stddev_x ^ 2) (c.max_stddev_x ^ 2)
        (calc_fitness_score cloud1 cloud2 relpose DBL_MAX)))
      (lt_of_lt_of_le (by positivity) (weight_ge_min c.var_gain_a c.fitness_score_thresh
        (c.min_stddev_q ^ 2) (c.max_stddev_q ^ 2)
        (calc_fitness_score cloud1 cloud2 relpose DBL_MAX)))

theorem calc_information_matrix_spd_witness :
    ((0:ℚ) < defaultCalculator.const_stddev_x ∧ (0:ℚ) < defaultCalculator.const_stddev_q
      ∧ (0:ℚ) < defaultCalculator.min_stddev_x ∧ (0:ℚ) < defaultCalculator.min_stddev_q)
    ∧ ((∀ i j : Fin 6, i ≠ j →
          calc_information_matrix defaultCalculator [] [] idPose i j = 0)
        ∧ (∀ i : Fin 6, 0 < calc_information_matrix defaultCalculator [] [] idPose i i)
        ∧ (∀ i j : Fin 6, calc_information_matrix defaultCalculator [] [] idPose i j
            = calc_information_matrix defaultCalculator [] [] idPose j i)
        ∧ ∀ x : Fin 6 → ℚ, x ≠ 0 →
            0 < ∑ i, ∑ j, x i * calc_information_matrix defaultCalculator [] [] idPose i j * x j) :=
  ⟨⟨by norm_num [defaultCalculator], by norm_num [defaultCalculator],
    by norm_num [defaultCalculator], by norm_num [defaultCalculator]⟩,
   calc_information_matrix_spd defaultCalculator
     (by norm_num [defaultCalculator]) (by norm_num [defaultCalculator])
     (by norm_num [defaultCalculator]) (by norm_num [defaultCalculator]) [] [] idPose⟩
